import Mathlib

/-!
Shallow embedding of the llmio gateway's routing and resilience engine
(weighted picker, 429 weight decay, retry loop, provider health registry,
config cache refresh, OpenAI request preprocessor, background health
checker), translated from the Go sources, together with theorems settling
the specification claims about them.

The file is laid out as definitions first (the embedding of the code),
then theorems (helper lemmas followed by the claim theorems and their
witnesses).
-/

namespace Llmio

/-! ## Weighted picker (balancer.WeightedRandom) and the 429 decay step

The router's candidate set `items` is a Go `map[uint]int` from binding id to
weight.  We embed it as an association list with unique keys; Go map
iteration order is unspecified, so the list order stands for one arbitrary
iteration order, which is all `WeightedRandom` needs (the spec only requires
the order to be stable within a single call). -/

/-- Candidate items: binding id paired with its (Go `int`) weight. -/
abbrev Items := List (Nat × Int)

/-- Go integer division truncates toward zero (`Int.tdiv`). -/
def goDiv (a b : Int) : Int := Int.tdiv a b

/-- Sum of all weights of the map, as computed by the `total` accumulation
loop in `WeightedRandom`. -/
def sumItems (items : Items) : Int := (items.map Prod.snd).sum

/-- Model of Go `rand.IntN n`: some value in `[0, n)` for `n > 0`; the
`seed` argument is the oracle resolving the nondeterminism. -/
def randIntN (seed n : Nat) : Nat := seed % n

/-- The subtraction walk of `WeightedRandom`: iterate the entries,
returning a key once `r < weight`, else subtract the weight from `r`.
Falling off the end yields the `unexpected error` branch. -/
def weightedWalk : Items → Int → Except String Nat
  | [], _ => .error "unexpected error"
  | (k, v) :: rest, r => if r < v then .ok k else weightedWalk rest (r - v)

/-- Embedding of `balancer.WeightedRandom` (src/unnamed/part_000): error on
an empty map, error on a non-positive total weight, otherwise draw
`r ∈ [0, total)` and walk the entries. -/
def WeightedRandom (items : Items) (seed : Nat) : Except String Nat :=
  if items.isEmpty then .error "no provide items"
  else
    let total := sumItems items
    if total ≤ 0 then .error "total provide weight must be greater than 0"
    else weightedWalk items (randIntN seed total.toNat)

/-- The 429 decay applied to one weight: `items[id] -= items[id] / 3` with
Go (truncating) integer division. -/
def decayWeight (w : Int) : Int := w - goDiv w 3

/-- The 429 branch of the retry loop (src/service/chat.go:193-199): decay
the picked binding's weight in place; the binding is not removed. -/
def decayAt (id : Nat) (items : Items) : Items :=
  items.map (fun p => if p.1 = id then (p.1, decayWeight p.2) else p)

/-- The non-429 failure branches of the retry loop: `delete(items, *item)`. -/
def eraseKey (id : Nat) (items : Items) : Items :=
  items.filter (fun p => p.1 ≠ id)

/-- Weight stored for a binding id (Go `items[id]` when present). -/
def findWeight (id : Nat) (items : Items) : Option Int :=
  (items.find? (fun p => p.1 = id)).map Prod.snd

/-- All weights in the map are at least one. -/
def allWeightsPos (items : Items) : Prop :=
  ∀ p ∈ items, 1 ≤ p.2

instance (items : Items) : Decidable (allWeightsPos items) := by
  unfold allWeightsPos; infer_instance

/-- A sequence of 429 decays, one per picked id, applied in order. -/
def applyDecays (ids : List Nat) (items : Items) : Items :=
  ids.foldl (fun it i => decayAt i it) items

/-! ## The retry loop of BalanceChatWithExclusions (src/service/chat.go:133-243)

The loop body is
```
for retry := 0; retry < MaxRetry; retry++ {
  select {
  case <-ctx.Done():            return ctx.Err()
  case <-time.After(TimeOut*s): return errors.New("retry time out !")
  default:                      ... one attempt ...
  }
}
return errors.New("maximum retry attempts reached !")
```
Go `select` with a `default` case never blocks: it takes `default` unless
some channel case is already ready at evaluation time.  The timer channel is
freshly created *inside* the select on every iteration by `time.After`, and
a just-created timer with a positive duration cannot have fired yet, so for
`TimeOut ≥ 1` the timeout case is never ready; `freshTimerReady` embeds
this.  Wall-clock time consumed by the attempts is threaded through as
ghost state (`elapsed`, in seconds) so that theorems can speak about the
budget the spec prescribes; the Go loop itself keeps no such clock. -/

/-- Whether the `time.After` channel created in this iteration's `select` is
already ready when the `select` evaluates its cases.  A freshly created
timer with positive duration has not fired, so with the `default` case
present the timeout branch is unreachable. -/
def freshTimerReady (_timeoutSec : Int) : Bool := false

/-- Upstream outcome of one dispatch attempt, with the wall-clock seconds
the attempt consumed (ghost data for the budget theorems). -/
inductive AttemptOutcome where
  | transportError (durSec : Nat)
  | httpStatus (code : Nat) (durSec : Nat)
deriving DecidableEq, Repr

/-- Result of the retry loop.  `elapsed` carries the ghost wall-clock total
(seconds) at exit. -/
inductive LoopResult where
  | success (retry : Nat) (elapsed : Nat)
  | ctxCancelled (elapsed : Nat)
  | retryTimeout (elapsed : Nat)
  | pickerError (msg : String) (elapsed : Nat)
  | maxRetryReached (elapsed : Nat)
deriving DecidableEq, Repr

/-- One request's oracles: request-context cancellation, the random draw of
each attempt, and the upstream outcome of each attempt (indexed by the
attempt number and the picked binding id). -/
structure LoopTrace where
  ctxDone : Nat → Bool
  seed : Nat → Nat
  outcome : Nat → Nat → AttemptOutcome

/-- The loop from attempt number `retry` with `fuel = MaxRetry - retry`
iterations remaining, mirroring chat.go lines 133-243: check the select
cases, pick a binding with `WeightedRandom`, dispatch, and classify
(transport error → delete and continue; status 200 → success; status 429 →
decay and continue; other status → delete and continue). -/
def runLoopFrom (timeOut : Int) (tr : LoopTrace) :
    Nat → Nat → Items → Nat → LoopResult
  | _, 0, _, elapsed => .maxRetryReached elapsed
  | retry, fuel + 1, items, elapsed =>
    if tr.ctxDone retry then .ctxCancelled elapsed
    else if freshTimerReady timeOut then .retryTimeout elapsed
    else
      match WeightedRandom items (tr.seed retry) with
      | .error msg => .pickerError msg elapsed
      | .ok id =>
        match tr.outcome retry id with
        | .transportError dur =>
            runLoopFrom timeOut tr (retry + 1) fuel (eraseKey id items)
              (elapsed + dur)
        | .httpStatus code dur =>
            if code = 200 then .success retry (elapsed + dur)
            else if code = 429 then
              runLoopFrom timeOut tr (retry + 1) fuel (decayAt id items)
                (elapsed + dur)
            else
              runLoopFrom timeOut tr (retry + 1) fuel (eraseKey id items)
                (elapsed + dur)

/-- The retry loop of `BalanceChatWithExclusions`, started at attempt 0. -/
def runRetryLoop (maxRetry : Nat) (timeOut : Int) (tr : LoopTrace)
    (items : Items) : LoopResult :=
  runLoopFrom timeOut tr 0 maxRetry items 0

/-- The concrete trace of the C1 failing input: a single binding `1` of
weight 1; every attempt takes 10 seconds upstream and comes back HTTP 429;
the request context is never cancelled. -/
def budgetTrace : LoopTrace :=
  { ctxDone := fun _ => false
    seed := fun _ => 0
    outcome := fun _ _ => .httpStatus 429 10 }

/-! ## Provider health registry (src/service/chat.go:252-349)

`updateProviderHealthOnError` / `updateProviderHealthOnSuccess` load the
`ProviderValidation` row for the provider (creating one if absent), mutate
it and save it.  We embed the record and the two transitions as pure
functions `Option ProviderValidation → ProviderValidation`; time is a `Nat`
of seconds since some epoch (`RetryAfterHours` hours become
`hours * 3600`). -/

/-- Embedding of `models.ProviderValidation` (the per-provider health
record). -/
structure ProviderValidation where
  isHealthy : Bool
  errorCount : Nat
  consecutiveSuccesses : Nat
  lastError : String
  lastStatusCode : Nat
  lastValidatedAt : Nat
  lastSuccessAt : Option Nat
  nextRetryAt : Option Nat
deriving DecidableEq, Repr

/-- Embedding of `models.HealthCheckConfig` (the fields the transitions
read). -/
structure HealthCheckConfig where
  enabled : Bool
  maxErrorCount : Nat
  retryAfterHours : Nat
deriving DecidableEq, Repr

/-- `updateProviderHealthOnError` (src/service/chat.go:252-301).  With no
existing row, a fresh healthy row with `ErrorCount = 1` is created and no
threshold check runs.  Otherwise: `ErrorCount++`, error fields updated,
`ConsecutiveSuccesses = 0`; then, if the config row is readable and
`ErrorCount >= MaxErrorCount && IsHealthy`, the provider is marked
unhealthy with `NextRetryAt = now + RetryAfterHours`. -/
def updateProviderHealthOnError (now : Nat) (errorMsg : String)
    (statusCode : Nat) (config : Option HealthCheckConfig)
    (rec : Option ProviderValidation) : ProviderValidation :=
  match rec with
  | none =>
      { isHealthy := true
        errorCount := 1
        consecutiveSuccesses := 0
        lastError := errorMsg
        lastStatusCode := statusCode
        lastValidatedAt := now
        lastSuccessAt := none
        nextRetryAt := none }
  | some v =>
      let v' := { v with
        errorCount := v.errorCount + 1
        lastError := errorMsg
        lastStatusCode := statusCode
        lastValidatedAt := now
        consecutiveSuccesses := 0 }
      match config with
      | none => v'
      | some cfg =>
          if v'.errorCount ≥ cfg.maxErrorCount ∧ v'.isHealthy then
            { v' with
              isHealthy := false
              nextRetryAt := some (now + cfg.retryAfterHours * 3600) }
          else v'

/-- `updateProviderHealthOnSuccess` (src/service/chat.go:304-349).  With no
existing row, a fresh healthy row with `ConsecutiveSuccesses = 1` is
created.  Otherwise: `ConsecutiveSuccesses++`, success timestamps updated;
only when the record was previously unhealthy are `ErrorCount`,
`LastError` and `NextRetryAt` cleared and `IsHealthy` restored. -/
def updateProviderHealthOnSuccess (now : Nat)
    (rec : Option ProviderValidation) : ProviderValidation :=
  match rec with
  | none =>
      { isHealthy := true
        errorCount := 0
        consecutiveSuccesses := 1
        lastError := ""
        lastStatusCode := 0
        lastValidatedAt := now
        lastSuccessAt := some now
        nextRetryAt := none }
  | some v =>
      let wasUnhealthy := !v.isHealthy
      let v' := { v with
        consecutiveSuccesses := v.consecutiveSuccesses + 1
        lastSuccessAt := some now
        lastValidatedAt := now }
      if wasUnhealthy then
        { v' with
          isHealthy := true
          errorCount := 0
          lastError := ""
          nextRetryAt := none }
      else v'

/-! ## Config entities (models package) -/

/-- Embedding of `models.Model` (the fields the router reads). -/
structure GwModel where
  id : Nat
  name : String
  maxRetry : Nat
  timeOut : Int
deriving DecidableEq, Repr

/-- Embedding of `models.Provider` (the fields the router reads). -/
structure Provider where
  id : Nat
  name : String
  typ : String
  config : String
deriving DecidableEq, Repr

/-- Embedding of `models.ModelWithProvider` (one binding). -/
structure ModelWithProvider where
  id : Nat
  modelID : Nat
  providerID : Nat
  providerModel : String
  toolCall : Option Bool
  structuredOutput : Option Bool
  image : Option Bool
  weight : Int
deriving DecidableEq, Repr

/-! ## Config cache refresh (src/service/config_cache.go:192-256)

The body of `refreshCache` after it has taken the write lock: it first
replaces all three cache maps with fresh empty maps, then runs the join
query, the all-models query and the all-providers query in that order,
returning early on the first error, and only stamps `lastRefreshTime` after
everything succeeded.  The database is an oracle supplying the three query
results; the function returns the `error` result together with the snapshot
state at exit. -/

/-- One row of the JOIN query in `refreshCache`. -/
structure JoinRow where
  mwp : ModelWithProvider
  modelName : String
  providerName : String
  providerType : String
deriving DecidableEq, Repr

/-- The three cache maps plus the refresh timestamp of `ConfigCache`. -/
structure Snapshot where
  modelCache : List (String × GwModel)
  providerCache : List (Nat × Provider)
  modelProviderCache : List (String × List ModelWithProvider)
  lastRefreshTime : Nat
deriving DecidableEq, Repr

/-- Oracle for the three database reads of one refresh. -/
structure RefreshQueries where
  joinQuery : Except String (List JoinRow)
  modelsQuery : Except String (List GwModel)
  providersQuery : Except String (List Provider)

/-- Append `v` to the group of `key` in an association-list multimap
(the `append` into `modelProviderCache[mp.ModelName]`). -/
def appendGroup (key : String) (v : ModelWithProvider) :
    List (String × List ModelWithProvider) →
    List (String × List ModelWithProvider)
  | [] => [(key, [v])]
  | (k, vs) :: rest =>
      if k = key then (k, vs ++ [v]) :: rest
      else (k, vs) :: appendGroup key v rest

/-- The grouping loop over join rows: rows with an empty model name are
skipped. -/
def groupRows (rows : List JoinRow) :
    List (String × List ModelWithProvider) :=
  rows.foldl
    (fun acc row =>
      if row.modelName ≠ "" then appendGroup row.modelName row.mwp acc
      else acc)
    []

/-- Embedding of the locked body of `ConfigCache.refreshCache`
(src/service/config_cache.go:192-256).  Note the three maps are cleared
*before* the first query runs. -/
def refreshCache (db : RefreshQueries) (now : Nat) (s : Snapshot) :
    Except String Unit × Snapshot :=
  let s0 : Snapshot :=
    { s with modelCache := [], providerCache := [], modelProviderCache := [] }
  match db.joinQuery with
  | .error e => (.error e, s0)
  | .ok rows =>
    match db.modelsQuery with
    | .error e => (.error e, s0)
    | .ok allModels =>
      let s1 := { s0 with
        modelCache := allModels.map (fun (m : GwModel) => (m.name, m)) }
      match db.providersQuery with
      | .error e => (.error e, s1)
      | .ok allProviders =>
        let s2 := { s1 with
          providerCache := allProviders.map (fun (p : Provider) => (p.id, p)) }
        let s3 := { s2 with modelProviderCache := groupRows rows }
        (.ok (), { s3 with lastRefreshTime := now })

/-! ## Candidate selection of BalanceChatWithExclusions
(src/service/chat.go:49-120)

The selection phase: collect the candidate bindings' provider ids, filter
out excluded and unhealthy providers, fall back to the full id list when
the healthy set is empty (logging one warning), load the providers of those
ids with the request's dialect (`type = style`), then build the weighted
`items` map after the capability filters.  `health id` stands for
`GetProviderHealth`: the `Except` error branch models a database error, and
the selection keeps a provider only when the call succeeded *and* the
record says healthy.  The returned `Nat` counts warning log lines
(the `falling back` warning). -/

/-- The request facts the selection phase reads (the `before` struct of
src/unnamed/part_010). -/
structure BeforeFacts where
  model : String
  stream : Bool
  toolCall : Bool
  structuredOutput : Bool
  image : Bool
deriving DecidableEq, Repr

/-- The healthy-provider filter of chat.go:59-72, including the exclusion
list. -/
def healthyProviderIds (providerIds : List Nat)
    (excluded : Option (List Nat))
    (health : Nat → Except String ProviderValidation) : List Nat :=
  providerIds.filter (fun id =>
    (match excluded with
     | some ex => !ex.contains id
     | none => true) &&
    (match health id with
     | .ok v => v.isHealthy
     | .error _ => false))

/-- The degradation rule of chat.go:74-79: fall back to the original id
list when the healthy set is empty; the second component counts the
`falling back` warnings logged. -/
def queryProviderIdsWithWarn (providerIds : List Nat)
    (excluded : Option (List Nat))
    (health : Nat → Except String ProviderValidation) :
    List Nat × Nat :=
  let healthy := healthyProviderIds providerIds excluded health
  if healthy.isEmpty then (providerIds, 1) else (healthy, 0)

/-- The capability/type filter of chat.go:96-116 building the weighted
items map from the bindings that survive. -/
def buildItems (style : String) (before : BeforeFacts)
    (llmproviders : List ModelWithProvider)
    (providerMap : Nat → Option Provider) : Items :=
  (llmproviders.filter (fun mp =>
    (match mp.toolCall with
     | some tc => !(before.toolCall && !tc)
     | none => true) &&
    (match mp.structuredOutput with
     | some so => !(before.structuredOutput && !so)
     | none => true) &&
    (match mp.image with
     | some im => !(before.image && !im)
     | none => true) &&
    (match providerMap mp.providerID with
     | some p => p.typ == style
     | none => false))).map (fun mp => (mp.id, mp.weight))

/-- Result of the selection phase: either one of the error exits of
chat.go:49-120, or the weighted items map together with the number of
`falling back` warnings logged. -/
def selectionPhase (style : String) (before : BeforeFacts)
    (llmproviders : List ModelWithProvider)
    (excluded : Option (List Nat))
    (health : Nat → Except String ProviderValidation)
    (providerTable : List Provider) :
    Except String (Items × Nat) :=
  if llmproviders.isEmpty then
    .error ("no provider found for models " ++ before.model)
  else
    let providerIds := llmproviders.map (fun mp => mp.providerID)
    let (queryIds, warn) := queryProviderIdsWithWarn providerIds excluded health
    let provideritems := providerTable.filter
      (fun p => queryIds.contains p.id && p.typ == style)
    if provideritems.isEmpty then
      .error ("no " ++ style ++ " provider found for " ++ before.model)
    else
      let providerMap := fun pid => provideritems.find? (fun p => p.id == pid)
      let items := buildItems style before llmproviders providerMap
      if items.isEmpty then
        .error ("no provider with tool_call or structured_output or image found for models "
          ++ before.model)
      else .ok (items, warn)

/-! ## OpenAI request preprocessor (src/unnamed/part_010, BeforerOpenAI)

The body is JSON; we embed parsed JSON values and the gjson/sjson
operations `BeforerOpenAI` performs on them.  `sjson.SetBytes(data,
"stream_options", v)` sets the *top-level* key `stream_options` to the
serialization of `v`, replacing whatever value (object or otherwise) was
there before. -/

/-- Parsed JSON value. -/
inductive JVal where
  | null
  | bool (b : Bool)
  | num (n : Int)
  | str (s : String)
  | arr (xs : List JVal)
  | obj (fields : List (String × JVal))
deriving BEq, Repr

/-- Top-level field lookup (gjson path of a single key). -/
def getField (j : JVal) (k : String) : Option JVal :=
  match j with
  | .obj fields => (fields.find? (fun p => p.1 == k)).map Prod.snd
  | _ => none

/-- Model of gjson `Result.String()` on the shapes the gateway reads:
a missing value reads as the empty string, and literals stringify. -/
def goString : Option JVal → String
  | some (.str s) => s
  | some (.bool true) => "true"
  | some (.bool false) => "false"
  | some (.num n) => toString n
  | _ => ""

/-- Model of gjson `Result.Bool()` on the shapes the gateway reads:
a JSON boolean is itself, a number is true when non-zero, the string
`true` is true, anything else (including a missing value) is false. -/
def goBool : Option JVal → Bool
  | some (.bool b) => b
  | some (.num n) => n != 0
  | some (.str s) => s == "true"
  | _ => false

/-- Set key `k` to `v` in an object's field list, replacing an existing
entry in place or appending a new one. -/
def setInFields (k : String) (v : JVal) :
    List (String × JVal) → List (String × JVal)
  | [] => [(k, v)]
  | (k', v') :: rest =>
      if k' == k then (k, v) :: rest
      else (k', v') :: setInFields k v rest

/-- Model of `sjson.SetBytes` at a single top-level key. -/
def setField (j : JVal) (k : String) (v : JVal) : JVal :=
  match j with
  | .obj fields => .obj (setInFields k v fields)
  | other => other

/-- The value `sjson` writes for
`struct{IncludeUsage bool}{IncludeUsage: true}`:
the object `\x7b"include_usage": true\x7d`. -/
def streamOptionsInjected : JVal := .obj [("include_usage", .bool true)]

/-- Model of gjson `Result.ForEach` / `Result.Array()` iteration: arrays
iterate their elements, objects their values, a scalar iterates once with
itself, and a missing or null value iterates nothing. -/
def forEachVals : Option JVal → List JVal
  | some (.arr xs) => xs
  | some (.obj fs) => fs.map Prod.snd
  | some .null => []
  | some other => [other]
  | none => []

/-- The `tools` detection: present and a non-empty array (gjson `Array()`
wraps a non-array scalar in a one-element slice). -/
def detectToolCall (j : JVal) : Bool :=
  match getField j "tools" with
  | some (.arr xs) => !xs.isEmpty
  | some .null => false
  | some _ => true
  | none => false

/-- The image detection walk over `messages`: any user-role message with a
content part of type `image_url`. -/
def detectImage (j : JVal) : Bool :=
  (forEachVals (getField j "messages")).any (fun msg =>
    goString (getField msg "role") == "user" &&
    (forEachVals (getField msg "content")).any (fun part =>
      goString (getField part "type") == "image_url"))

/-- Embedding of `BeforerOpenAI` (src/unnamed/part_010): reject an empty
model name; when `stream` is set, rewrite the body by setting
`stream_options` to the injected object; then derive the capability facts
from the (possibly rewritten) body and return it. -/
def BeforerOpenAI (j : JVal) : Except String (BeforeFacts × JVal) :=
  let model := goString (getField j "model")
  if model == "" then .error "model is empty"
  else
    let stream := goBool (getField j "stream")
    let j1 := if stream then setField j "stream_options" streamOptionsInjected
              else j
    .ok ({ model := model
           stream := stream
           toolCall := detectToolCall j1
           structuredOutput := (getField j1 "response_format").isSome
           image := detectImage j1 }, j1)

/-! ## Background health checker (src/PROJECT_IMPROVEMENTS_FINAL.md:770-906)

`checkProvider` loads (or creates) the provider's validation record, skips
the probe while an unhealthy provider's `NextRetryAt` lies in the future,
and otherwise dispatches a synthetic request whose outcome
`performHealthCheck` classifies.  The upstream outcome is an oracle. -/

/-- Outcome of the synthetic probe request: a transport error from
`chatModel.Chat`, or an HTTP response status. -/
inductive ProbeOutcome where
  | transportError (msg : String)
  | status (code : Nat)
deriving DecidableEq, Repr

/-- The classifier switch of `performHealthCheck`
(src/PROJECT_IMPROVEMENTS_FINAL.md:891-906): true means the provider
counts as reachable (health success). -/
def classifyHealthStatus (statusCode : Nat) : Bool :=
  if 200 ≤ statusCode ∧ statusCode < 300 then true
  else if statusCode = 401 ∨ statusCode = 403 then true
  else if statusCode = 404 then true
  else if statusCode = 429 then true
  else if 500 ≤ statusCode then false
  else false

/-- The per-status message of the classifier switch. -/
def healthCheckMsg (code : Nat) : String :=
  if 200 ≤ code ∧ code < 300 then ""
  else if code = 401 ∨ code = 403 then
    "authentication error (provider is reachable)"
  else if code = 404 then "model not found (provider is reachable)"
  else if code = 429 then "rate limited (provider is reachable)"
  else if 500 ≤ code then "server error: " ++ toString code
  else "unexpected status: " ++ toString code

/-- `performHealthCheck` (src/PROJECT_IMPROVEMENTS_FINAL.md:851-906):
transport errors are failures with status code 0; a response is classified
by its status. -/
def performHealthCheck : ProbeOutcome → Bool × Nat × String
  | .transportError msg => (false, 0, "request failed: " ++ msg)
  | .status code => (classifyHealthStatus code, code, healthCheckMsg code)

/-- The fresh validation record `checkProvider` creates when none exists. -/
def freshValidation (now : Nat) : ProviderValidation :=
  { isHealthy := true
    errorCount := 0
    consecutiveSuccesses := 0
    lastError := ""
    lastStatusCode := 0
    lastValidatedAt := now
    lastSuccessAt := none
    nextRetryAt := none }

/-- Embedding of `HealthCheckService.checkProvider`
(src/PROJECT_IMPROVEMENTS_FINAL.md:770-848).  Returns the saved record and
whether a probe was dispatched (false on the skip path, which leaves the
record untouched). -/
def checkProvider (now : Nat) (cfg : HealthCheckConfig)
    (rec : Option ProviderValidation) (probe : ProbeOutcome) :
    ProviderValidation × Bool :=
  let v := match rec with
    | none => freshValidation now
    | some v => v
  if !v.isHealthy &&
      (match v.nextRetryAt with
       | some t => decide (now < t)
       | none => false) then
    (v, false)
  else
    let (healthy, statusCode, errMsg) := performHealthCheck probe
    let v1 := { v with lastValidatedAt := now, lastStatusCode := statusCode }
    if healthy then
      let v2 := { v1 with
        consecutiveSuccesses := v1.consecutiveSuccesses + 1
        lastSuccessAt := some now }
      if !v.isHealthy then
        ({ v2 with
            isHealthy := true
            errorCount := 0
            lastError := ""
            nextRetryAt := none }, true)
      else (v2, true)
    else
      let v2 := { v1 with
        errorCount := v1.errorCount + 1
        lastError := errMsg
        consecutiveSuccesses := 0 }
      if v2.errorCount ≥ cfg.maxErrorCount then
        ({ v2 with
            isHealthy := false
            nextRetryAt := some (now + cfg.retryAfterHours * 3600) }, true)
      else (v2, true)

/-! ## Concrete scenario data used by counterexamples and witnesses -/

/-- A health-check configuration with `maxErrorCount = 2`, used by the C4
counterexample. -/
def cfgTwoErrors : HealthCheckConfig :=
  { enabled := true, maxErrorCount := 2, retryAfterHours := 1 }

/-- A healthy record with one accumulated error, used by the C4 witness. -/
def healthyOneError : ProviderValidation :=
  { isHealthy := true, errorCount := 1, consecutiveSuccesses := 0,
    lastError := "", lastStatusCode := 0, lastValidatedAt := 0,
    lastSuccessAt := none, nextRetryAt := none }

/-- A binding row of the populated snapshot below. -/
def preBinding : ModelWithProvider :=
  { id := 1, modelID := 1, providerID := 1, providerModel := "gpt",
    toolCall := none, structuredOutput := none, image := none, weight := 1 }

/-- A populated cache snapshot, used by the C5 counterexample. -/
def preSnapshot : Snapshot :=
  { modelCache := [("m1", { id := 1, name := "m1", maxRetry := 3, timeOut := 60 })]
    providerCache := [(1, { id := 1, name := "p1", typ := "openai", config := "" })]
    modelProviderCache := [("m1", [preBinding])]
    lastRefreshTime := 100 }

/-- A database oracle whose join query fails, used by the C5
counterexample. -/
def failingJoinDb : RefreshQueries :=
  { joinQuery := .error "database is locked"
    modelsQuery := .ok []
    providersQuery := .ok [] }

/-- An unhealthy validation record with `nextRetryAt = 100`, used by the
C8 witness and the C6 witness. -/
def unhealthyAt100 : ProviderValidation :=
  { isHealthy := false, errorCount := 5, consecutiveSuccesses := 0,
    lastError := "server error: 500", lastStatusCode := 500,
    lastValidatedAt := 50, lastSuccessAt := none, nextRetryAt := some 100 }

/-- The C7 body: a streaming OpenAI request whose client already set a
subfield under `stream_options`. -/
def c7Body : JVal :=
  .obj [("model", .str "m"), ("stream", .bool true),
    ("stream_options", .obj [("chunk_size", .num 1)])]

/-- The request facts of the C6 witness scenario. -/
def c6Before : BeforeFacts :=
  { model := "m1", stream := false, toolCall := false,
    structuredOutput := false, image := false }

/-- The single candidate binding of the C6 witness scenario. -/
def c6Bindings : List ModelWithProvider :=
  [{ id := 7, modelID := 1, providerID := 1, providerModel := "gpt",
     toolCall := none, structuredOutput := none, image := none, weight := 2 }]

/-- The provider table of the C6 witness scenario. -/
def c6Providers : List Provider :=
  [{ id := 1, name := "p1", typ := "openai", config := "" }]

/-- A health oracle under which every provider reads as unhealthy. -/
def c6Health : Nat → Except String ProviderValidation :=
  fun _ => .ok unhealthyAt100

/-! ## Helper lemmas -/

theorem sumItems_cons (p : Nat × Int) (rest : Items) :
    sumItems (p :: rest) = p.2 + sumItems rest := by
  simp [sumItems]

theorem goDiv_eq_ediv_of_nonneg {a : Int} (b : Int) (ha : 0 ≤ a) (hb : 0 ≤ b) :
    goDiv a b = a / b := by
  unfold goDiv
  rw [Int.tdiv_eq_ediv] <;> omega

/-- Arithmetic core of the decay step: a weight that is at least one stays
at least one after `w - w / 3`. -/
theorem decayWeight_pos {w : Int} (hw : 1 ≤ w) : 1 ≤ decayWeight w := by
  unfold decayWeight
  rw [goDiv_eq_ediv_of_nonneg 3 (by omega) (by omega)]
  omega

/-- Decay never increases a nonnegative weight. -/
theorem decayWeight_le {w : Int} (hw : 0 ≤ w) : decayWeight w ≤ w := by
  unfold decayWeight
  rw [goDiv_eq_ediv_of_nonneg 3 (by omega) (by omega)]
  omega

/-- For weights at least three the decay is strict. -/
theorem decayWeight_lt {w : Int} (hw : 3 ≤ w) : decayWeight w < w := by
  unfold decayWeight
  rw [goDiv_eq_ediv_of_nonneg 3 (by omega) (by omega)]
  omega

theorem decayAt_keys (id : Nat) (items : Items) :
    (decayAt id items).map Prod.fst = items.map Prod.fst := by
  induction items with
  | nil => rfl
  | cons p rest ih =>
    simp only [decayAt, List.map_cons] at *
    by_cases h : p.1 = id <;> simp [h, ih]

theorem decayAt_allWeightsPos {id : Nat} {items : Items}
    (h : allWeightsPos items) : allWeightsPos (decayAt id items) := by
  intro p hp
  simp only [decayAt, List.mem_map] at hp
  obtain ⟨q, hq, hqe⟩ := hp
  by_cases hk : q.1 = id
  · simp only [hk, if_pos rfl] at hqe
    subst hqe
    exact decayWeight_pos (h q hq)
  · simp only [if_neg hk] at hqe
    subst hqe
    exact h q hq

theorem applyDecays_allWeightsPos {ids : List Nat} {items : Items}
    (h : allWeightsPos items) : allWeightsPos (applyDecays ids items) := by
  induction ids generalizing items with
  | nil => exact h
  | cons i rest ih => exact ih (decayAt_allWeightsPos h)

theorem applyDecays_keys (ids : List Nat) (items : Items) :
    (applyDecays ids items).map Prod.fst = items.map Prod.fst := by
  induction ids generalizing items with
  | nil => rfl
  | cons i rest ih =>
    simp only [applyDecays, List.foldl_cons] at *
    rw [ih, decayAt_keys]

theorem sumItems_nonneg {items : Items} (h : ∀ p ∈ items, 0 ≤ p.2) :
    0 ≤ sumItems items := by
  induction items with
  | nil => simp [sumItems]
  | cons p rest ih =>
    rw [sumItems_cons]
    have hp : 0 ≤ p.2 := h p (by simp)
    have hr : 0 ≤ sumItems rest := ih (fun q hq => h q (by simp [hq]))
    omega

theorem sumItems_pos {items : Items} (hne : items ≠ [])
    (h : allWeightsPos items) : 1 ≤ sumItems items := by
  match items, hne with
  | p :: rest, _ =>
    have h1 : 1 ≤ p.2 := h p (List.mem_cons_self _ _)
    have h2 : 0 ≤ sumItems rest :=
      sumItems_nonneg (fun q hq => le_of_lt (h q (by simp [hq])))
    rw [sumItems_cons]
    omega

/-- The walk always lands on some key when the draw is within the total and
all weights are nonnegative. -/
theorem weightedWalk_ok {items : Items} {r : Int}
    (hr0 : 0 ≤ r) (hrt : r < sumItems items)
    (h : ∀ p ∈ items, 0 ≤ p.2) :
    ∃ k, weightedWalk items r = .ok k := by
  induction items generalizing r with
  | nil => simp [sumItems] at hrt; omega
  | cons p rest ih =>
    by_cases hc : r < p.2
    · exact ⟨p.1, by simp [weightedWalk, hc]⟩
    · have hp : 0 ≤ p.2 := h p (by simp)
      have hrt' : r - p.2 < sumItems rest := by
        rw [sumItems_cons] at hrt
        omega
      obtain ⟨k, hk⟩ := ih (by omega) hrt' (fun q hq => h q (by simp [hq]))
      exact ⟨k, by simp [weightedWalk, hc, hk]⟩

theorem WeightedRandom_ok {items : Items} (hne : items ≠ [])
    (h : allWeightsPos items) (seed : Nat) :
    ∃ k, WeightedRandom items seed = .ok k := by
  have htot : 1 ≤ sumItems items := sumItems_pos hne h
  have hempty : items.isEmpty = false := by
    cases items with
    | nil => exact absurd rfl hne
    | cons p rest => rfl
  unfold WeightedRandom
  rw [hempty]
  simp only [Bool.false_eq_true, if_false, if_neg (by omega : ¬ sumItems items ≤ 0)]
  apply weightedWalk_ok (by positivity) _ (fun p hp => le_of_lt (h p hp))
  have hmod : randIntN seed (sumItems items).toNat < (sumItems items).toNat :=
    Nat.mod_lt _ (by omega)
  omega

/-- Whatever the trace, the loop never exits through the
`retry time out !` branch: the timeout channel of a `select` that also has
a `default` case is recreated unfired on every iteration. -/
theorem runLoopFrom_ne_retryTimeout (timeOut : Int) (tr : LoopTrace)
    (retry fuel : Nat) (items : Items) (elapsed e : Nat) :
    runLoopFrom timeOut tr retry fuel items elapsed ≠ .retryTimeout e := by
  induction fuel generalizing retry items elapsed with
  | zero => simp [runLoopFrom]
  | succ n ih =>
    unfold runLoopFrom
    by_cases hc : tr.ctxDone retry
    · simp [hc]
    · simp only [hc, Bool.false_eq_true, if_false, freshTimerReady]
      cases hpick : WeightedRandom items (tr.seed retry) with
      | error msg => simp [hpick]
      | ok id =>
        simp only [hpick]
        cases hout : tr.outcome retry id with
        | transportError dur =>
          simp only [hout]
          simpa using ih _ _ _
        | httpStatus code dur =>
          simp only [hout]
          by_cases h200 : code = 200
          · simp [h200]
          · by_cases h429 : code = 429 <;> simp only [h200, h429, if_true,
              if_false] <;> simpa using ih _ _ _

theorem decayAt_of_not_mem {id : Nat} {items : Items}
    (h : id ∉ items.map Prod.fst) : decayAt id items = items := by
  induction items with
  | nil => rfl
  | cons p rest ih =>
    simp only [List.map_cons, List.mem_cons] at h
    push_neg at h
    simp only [decayAt, List.map_cons, List.cons.injEq]
    exact ⟨if_neg (fun he => h.1 he.symm), ih h.2⟩

theorem findWeight_cons (p : Nat × Int) (rest : Items) (id : Nat) :
    findWeight id (p :: rest) =
      if p.1 = id then some p.2 else findWeight id rest := by
  by_cases h : p.1 = id <;> simp [findWeight, List.find?, h]

theorem sumItems_decayAt {items : Items} {id : Nat} {w : Int}
    (hnd : (items.map Prod.fst).Nodup) (hw : findWeight id items = some w) :
    sumItems (decayAt id items) = sumItems items - goDiv w 3 := by
  induction items with
  | nil => simp [findWeight] at hw
  | cons p rest ih =>
    rw [findWeight_cons] at hw
    simp only [List.map_cons, List.nodup_cons] at hnd
    by_cases h : p.1 = id
    · rw [if_pos h] at hw
      have hwv : w = p.2 := by injection hw with h'; omega
      have hrest : decayAt id rest = rest :=
        decayAt_of_not_mem (by rw [← h]; exact hnd.1)
      simp only [decayAt, List.map_cons, if_pos h]
      rw [show (List.map (fun q => if q.1 = id then (q.1, decayWeight q.2) else q) rest) = decayAt id rest from rfl]
      rw [hrest, sumItems_cons, sumItems_cons, hwv]
      simp [decayWeight]
      ring
    · rw [if_neg h] at hw
      simp only [decayAt, List.map_cons, if_neg h]
      rw [show (List.map (fun q => if q.1 = id then (q.1, decayWeight q.2) else q) rest) = decayAt id rest from rfl]
      rw [sumItems_cons, sumItems_cons, ih hnd.2 hw]
      ring

theorem findWeight_decayAt (id : Nat) (items : Items) :
    findWeight id (decayAt id items) =
      (findWeight id items).map decayWeight := by
  induction items with
  | nil => rfl
  | cons p rest ih =>
    by_cases h : p.1 = id
    · simp [decayAt, findWeight_cons, h]
    · rw [show decayAt id (p :: rest) = p :: decayAt id rest from by
        simp [decayAt, if_neg h]]
      rw [findWeight_cons, findWeight_cons, ih]
      simp [h]

theorem goDiv_three_bounds {w : Int} (hw : 1 ≤ w) :
    (0 ≤ goDiv w 3) ∧ (3 ≤ w → 1 ≤ goDiv w 3) ∧ (w < 3 → goDiv w 3 = 0) := by
  rw [goDiv_eq_ediv_of_nonneg 3 (by omega) (by omega)]
  omega

theorem getField_setField_same (fields : List (String × JVal)) (k : String)
    (v : JVal) :
    getField (setField (.obj fields) k v) k = some v := by
  induction fields with
  | nil => simp [setField, setInFields, getField, List.find?]
  | cons p rest ih =>
    by_cases h : p.1 = k
    · simp [setField, setInFields, getField, List.find?, h]
    · simp only [setField, setInFields] at ih ⊢
      simp only [beq_iff_eq, h, if_false, getField, List.find?]
      rw [show ((p.1 == k) = false) from by simpa using h]
      simpa [getField] using ih

theorem getField_setField_other (fields : List (String × JVal))
    (k k0 : String) (v : JVal) (hk : k0 ≠ k) :
    getField (setField (.obj fields) k v) k0 = getField (.obj fields) k0 := by
  induction fields with
  | nil =>
    simp only [setField, setInFields, getField, List.find?]
    rw [show ((k == k0) = false) from by simpa using fun he => hk he.symm]
  | cons p rest ih =>
    by_cases h : p.1 = k
    · have h1 : (k == k0) = false := by simpa using fun he => hk he.symm
      have h2 : (p.1 == k0) = false := by
        simpa using fun he => hk (h ▸ he.symm)
      simp [setField, setInFields, h, getField, List.find?, h1, h2]
    · simp only [setField, setInFields, beq_iff_eq, h, if_false, getField,
        List.find?] at ih ⊢
      by_cases h0 : p.1 = k0
      · rw [show ((p.1 == k0) = true) from by simpa using h0]
      · rw [show ((p.1 == k0) = false) from by simpa using h0]
        simpa [getField] using ih

/-! ## Claim theorems -/

/-- C1: the spec says the retry loop is bounded both by `maxRetry` and by a
wall-clock budget of the model's `timeout` seconds, exiting with the
retry-timeout error when the budget fires first.  The code cannot do this:
its `select` has a `default` case and recreates the `time.After` channel on
every iteration, so the `retry time out !` branch is unreachable.  At the
failing input (timeout 1 s, maxRetry 3, a single binding whose every
attempt takes 10 s and returns HTTP 429) the loop performs all three
attempts — 30 s of wall clock against a 1 s budget — and exits with the
max-retry error; in general no trace makes it return the timeout error. -/
theorem retryLoop_wall_clock_budget_never_fires :
    runRetryLoop 3 1 budgetTrace [(1, 1)] = .maxRetryReached 30 ∧
    (∀ (maxRetry : Nat) (timeOut : Int) (tr : LoopTrace) (items : Items)
       (e : Nat), runRetryLoop maxRetry timeOut tr items ≠ .retryTimeout e) := by
  refine ⟨by decide, ?_⟩
  intro maxRetry timeOut tr items e
  exact runLoopFrom_ne_retryTimeout timeOut tr 0 maxRetry items 0 e

/-- C2 counterexample: at weight 4 the decay `w -= w / 3` leaves 3, while
`⌊4·2/3⌋ = 2`, so the decayed weight does not equal `⌊w·2/3⌋`. -/
theorem decay_weight_not_floor_double_third :
    ¬ findWeight 1 (decayAt 1 [(1, 4)]) = some (Int.fdiv (4 * 2) 3) := by
  decide

/-- C2 amended: after an HTTP 429 the picked binding's weight `w ≥ 1`
becomes `w - ⌊w/3⌋` (Go truncating division), which equals `⌈w·2/3⌉`, and
the binding remains in the candidate items map. -/
theorem decay_weight_ceil_two_thirds {items : Items} {id : Nat} {w : Int}
    (hw : findWeight id items = some w) (h1 : 1 ≤ w) :
    findWeight id (decayAt id items) = some (w - goDiv w 3) ∧
    w - goDiv w 3 = Int.fdiv (2 * w + 2) 3 ∧
    id ∈ (decayAt id items).map Prod.fst := by
  refine ⟨?_, ?_, ?_⟩
  · rw [findWeight_decayAt, hw]
    rfl
  · rw [goDiv_eq_ediv_of_nonneg 3 (by omega) (by omega),
      Int.fdiv_eq_ediv _ (by omega)]
    omega
  · rw [decayAt_keys]
    induction items with
    | nil => simp [findWeight] at hw
    | cons p rest ih =>
      rw [findWeight_cons] at hw
      by_cases h : p.1 = id
      · simp [h]
      · rw [if_neg h] at hw
        simpa using Or.inr (ih hw)

/-- C2 witness: the amended decay law evaluated at a one-binding map of
weight 4. -/
theorem decay_weight_ceil_two_thirds_witness :
    findWeight 1 [(1, 4)] = some 4 ∧ (1 : Int) ≤ 4 ∧
    (findWeight 1 (decayAt 1 [(1, 4)]) = some (4 - goDiv 4 3) ∧
     (4 : Int) - goDiv 4 3 = Int.fdiv (2 * 4 + 2) 3 ∧
     1 ∈ (decayAt 1 [(1, 4)]).map Prod.fst) :=
  ⟨by decide, by decide,
   decay_weight_ceil_two_thirds (by decide) (by decide)⟩

/-- C3 counterexample: a binding of weight 2 picked twice with HTTP 429
both times decays to 2 both times, so the total weight after the second
decay is not strictly smaller than after the first. -/
theorem sum_weights_not_strictly_decreasing :
    ¬ sumItems (decayAt 1 (decayAt 1 [(1, 2)])) <
        sumItems (decayAt 1 [(1, 2)]) := by
  decide

/-- C3 amended: each 429 decay leaves the total weight of `items` no
larger; the decrease is strict exactly when the decayed binding's current
weight is at least 3, and the total is unchanged when that weight is 1 or
2 (such weights are fixed points of `w - w/3`). -/
theorem sum_weights_decay_monotone {items : Items} {id : Nat} {w : Int}
    (hnd : (items.map Prod.fst).Nodup) (hw : findWeight id items = some w)
    (h1 : 1 ≤ w) :
    sumItems (decayAt id items) ≤ sumItems items ∧
    (3 ≤ w → sumItems (decayAt id items) < sumItems items) ∧
    (w < 3 → sumItems (decayAt id items) = sumItems items) := by
  have hsum := sumItems_decayAt hnd hw
  have hb := goDiv_three_bounds h1
  refine ⟨by omega, fun h3 => by have := hb.2.1 h3; omega,
    fun h3 => by have := hb.2.2 h3; omega⟩

/-- C3 witness: the amended monotonicity law evaluated at a two-binding
map where the decayed binding has weight 3. -/
theorem sum_weights_decay_monotone_witness :
    (([(1, 3), (2, 1)] : Items).map Prod.fst).Nodup ∧
    findWeight 1 [(1, 3), (2, 1)] = some 3 ∧ (1 : Int) ≤ 3 ∧
    (sumItems (decayAt 1 [(1, 3), (2, 1)]) ≤ sumItems [(1, 3), (2, 1)] ∧
     ((3 : Int) ≤ 3 →
       sumItems (decayAt 1 [(1, 3), (2, 1)]) < sumItems [(1, 3), (2, 1)]) ∧
     ((3 : Int) < 3 →
       sumItems (decayAt 1 [(1, 3), (2, 1)]) = sumItems [(1, 3), (2, 1)])) :=
  ⟨by decide, by decide, by decide,
   sum_weights_decay_monotone (by decide) (by decide) (by decide)⟩

/-- C4 counterexample: with `maxErrorCount = 2`, the event sequence
failure, success, failure — starting from no record — ends with
`isHealthy = false` although the failures were not consecutive: the
intervening success left the error counter at 1 instead of resetting it to
0 (the code only resets `ErrorCount` when recovering from unhealthy). -/
theorem unhealthy_after_nonconsecutive_failures :
    (updateProviderHealthOnError 0 "boom" 500 (some cfgTwoErrors)
        none).isHealthy = true ∧
    (updateProviderHealthOnSuccess 1
        (some (updateProviderHealthOnError 0 "boom" 500 (some cfgTwoErrors)
          none))).errorCount = 1 ∧
    (updateProviderHealthOnSuccess 1
        (some (updateProviderHealthOnError 0 "boom" 500 (some cfgTwoErrors)
          none))).isHealthy = true ∧
    (updateProviderHealthOnError 2 "boom" 500 (some cfgTwoErrors)
        (some (updateProviderHealthOnSuccess 1
          (some (updateProviderHealthOnError 0 "boom" 500 (some cfgTwoErrors)
            none))))).isHealthy = false := by
  decide

/-- C4 amended: the router's health update marks a provider unhealthy only
on a failure event whose accumulated error count — failures since the
record was created or since the last recovery from unhealthy; successes
while healthy do not reset it — reaches `maxErrorCount`; a failure with no
existing record always leaves the provider healthy, and a single 429
hitting a zero error count under `maxErrorCount ≥ 2` leaves it healthy. -/
theorem unhealthy_only_at_error_threshold (now : Nat) (msg : String)
    (code : Nat) (cfg : HealthCheckConfig) (v : ProviderValidation)
    (hv : v.isHealthy = true) :
    ((updateProviderHealthOnError now msg code (some cfg)
        (some v)).isHealthy = false → cfg.maxErrorCount ≤ v.errorCount + 1) ∧
    (v.errorCount + 1 < cfg.maxErrorCount →
      (updateProviderHealthOnError now msg code (some cfg)
        (some v)).isHealthy = true) ∧
    (updateProviderHealthOnError now msg code (some cfg)
        none).isHealthy = true ∧
    (v.errorCount = 0 → 2 ≤ cfg.maxErrorCount →
      (updateProviderHealthOnError now msg code (some cfg)
        (some v)).isHealthy = true) := by
  simp only [updateProviderHealthOnError]
  refine ⟨?_, ?_, ?_, ?_⟩
  · intro h
    split at h
    · next hcond => simpa using hcond.1
    · next hcond => exact absurd (show v.isHealthy = false from h) (by simp [hv])
  · intro hlt
    split
    · next hcond =>
      have h1 : cfg.maxErrorCount ≤ v.errorCount + 1 := hcond.1
      exact absurd h1 (by omega)
    · exact hv
  · trivial
  · intro h0 h2
    split
    · next hcond =>
      have h1 : cfg.maxErrorCount ≤ v.errorCount + 1 := hcond.1
      exact absurd h1 (by omega)
    · exact hv

/-- C4 witness: the amended threshold law evaluated at a healthy record
with one accumulated error under `maxErrorCount = 2`. -/
theorem unhealthy_only_at_error_threshold_witness :
    healthyOneError.isHealthy = true ∧
    (((updateProviderHealthOnError 5 "boom" 429 (some cfgTwoErrors)
        (some healthyOneError)).isHealthy = false →
        cfgTwoErrors.maxErrorCount ≤ healthyOneError.errorCount + 1) ∧
      (healthyOneError.errorCount + 1 < cfgTwoErrors.maxErrorCount →
        (updateProviderHealthOnError 5 "boom" 429 (some cfgTwoErrors)
          (some healthyOneError)).isHealthy = true) ∧
      (updateProviderHealthOnError 5 "boom" 429 (some cfgTwoErrors)
          none).isHealthy = true ∧
      (healthyOneError.errorCount = 0 → 2 ≤ cfgTwoErrors.maxErrorCount →
        (updateProviderHealthOnError 5 "boom" 429 (some cfgTwoErrors)
          (some healthyOneError)).isHealthy = true)) :=
  ⟨rfl, unhealthy_only_at_error_threshold 5 "boom" 429 cfgTwoErrors
    healthyOneError rfl⟩

/-- C5 counterexample: a refresh whose join query fails does not leave the
snapshot equal to its pre-refresh value — the three maps were cleared
before the query ran. -/
theorem refresh_failure_does_not_preserve_snapshot :
    ¬ (refreshCache failingJoinDb 200 preSnapshot).2 = preSnapshot := by
  intro h
  have h2 : (refreshCache failingJoinDb 200 preSnapshot).2.modelCache = [] :=
    rfl
  rw [h] at h2
  simp [preSnapshot] at h2

/-- C5 amended: when the join query of a refresh fails, the three cache
maps have already been replaced by empty ones, so the refresh returns the
query's error (which the caller logs) and leaves the snapshot emptied with
`lastRefreshTime` unchanged; subsequent reads therefore miss the cache and
fall through to per-key database queries instead of seeing the previous
snapshot. -/
theorem refresh_failure_leaves_cleared_snapshot (db : RefreshQueries)
    (now : Nat) (s : Snapshot) (e : String) (h : db.joinQuery = .error e) :
    refreshCache db now s =
      (.error e,
       { modelCache := [], providerCache := [], modelProviderCache := []
         lastRefreshTime := s.lastRefreshTime }) := by
  unfold refreshCache
  rw [h]

/-- C5 witness: the amended failure semantics evaluated at the populated
snapshot and the failing oracle. -/
theorem refresh_failure_leaves_cleared_snapshot_witness :
    failingJoinDb.joinQuery = .error "database is locked" ∧
    refreshCache failingJoinDb 200 preSnapshot =
      (.error "database is locked",
       { modelCache := [], providerCache := [], modelProviderCache := []
         lastRefreshTime := preSnapshot.lastRefreshTime }) :=
  ⟨rfl, refresh_failure_leaves_cleared_snapshot failingJoinDb 200 preSnapshot
    "database is locked" rfl⟩

/-- C6: when every candidate binding's provider fails the health check
(no exclusion list), the selection phase falls back to the full unfiltered
candidate id list, logs exactly one warning, and — whenever providers of
the requested dialect and capability-surviving bindings exist — proceeds
to the weighted-pick/retry path with the items built over the full
dialect-restricted set instead of failing. -/
theorem degradation_uses_full_candidate_set (style : String)
    (before : BeforeFacts) (llmproviders : List ModelWithProvider)
    (health : Nat → Except String ProviderValidation)
    (providerTable : List Provider)
    (hun : ∀ id ∈ llmproviders.map (fun mp => mp.providerID),
      (match health id with
       | .ok v => v.isHealthy
       | .error _ => false) = false)
    (hne : llmproviders ≠ [])
    (hprov : providerTable.filter (fun p =>
        (llmproviders.map (fun mp => mp.providerID)).contains p.id &&
          p.typ == style) ≠ [])
    (hitems : buildItems style before llmproviders (fun pid =>
        (providerTable.filter (fun p =>
          (llmproviders.map (fun mp => mp.providerID)).contains p.id &&
            p.typ == style)).find? (fun p => p.id == pid)) ≠ []) :
    selectionPhase style before llmproviders none health providerTable =
      .ok (buildItems style before llmproviders (fun pid =>
        (providerTable.filter (fun p =>
          (llmproviders.map (fun mp => mp.providerID)).contains p.id &&
            p.typ == style)).find? (fun p => p.id == pid)), 1) := by
  have hempty : healthyProviderIds
      (llmproviders.map (fun mp => mp.providerID)) none health = [] := by
    unfold healthyProviderIds
    rw [List.filter_eq_nil_iff]
    intro id hid
    rw [hun id hid]
    simp
  have hq : queryProviderIdsWithWarn
      (llmproviders.map (fun mp => mp.providerID)) none health =
      (llmproviders.map (fun mp => mp.providerID), 1) := by
    unfold queryProviderIdsWithWarn
    rw [hempty]
    rfl
  unfold selectionPhase
  rw [show (llmproviders.isEmpty = false) from by
    cases llmproviders with
    | nil => exact absurd rfl hne
    | cons a l => rfl]
  simp only [Bool.false_eq_true, if_false, hq]
  rw [show ((providerTable.filter (fun p =>
      (llmproviders.map (fun mp => mp.providerID)).contains p.id &&
        p.typ == style)).isEmpty = false) from by
    rcases hp : providerTable.filter (fun p =>
        (llmproviders.map (fun mp => mp.providerID)).contains p.id &&
          p.typ == style) with _ | ⟨a, l⟩
    · exact absurd hp hprov
    · rw [hp]
      rfl]
  simp only [Bool.false_eq_true, if_false]
  rw [show ((buildItems style before llmproviders (fun pid =>
      (providerTable.filter (fun p =>
        (llmproviders.map (fun mp => mp.providerID)).contains p.id &&
          p.typ == style)).find? (fun p => p.id == pid))).isEmpty = false) from by
    rcases hi : buildItems style before llmproviders (fun pid =>
        (providerTable.filter (fun p =>
          (llmproviders.map (fun mp => mp.providerID)).contains p.id &&
            p.typ == style)).find? (fun p => p.id == pid)) with _ | ⟨a, l⟩
    · exact absurd hi hitems
    · rw [hi]
      rfl]
  simp

/-- C6 witness: the degradation rule evaluated at a one-binding scenario
whose only provider is unhealthy. -/
theorem degradation_uses_full_candidate_set_witness :
    (∀ id ∈ c6Bindings.map (fun mp => mp.providerID),
      (match c6Health id with
       | .ok v => v.isHealthy
       | .error _ => false) = false) ∧
    c6Bindings ≠ [] ∧
    c6Providers.filter (fun p =>
      (c6Bindings.map (fun mp => mp.providerID)).contains p.id &&
        p.typ == "openai") ≠ [] ∧
    buildItems "openai" c6Before c6Bindings (fun pid =>
      (c6Providers.filter (fun p =>
        (c6Bindings.map (fun mp => mp.providerID)).contains p.id &&
          p.typ == "openai")).find? (fun p => p.id == pid)) ≠ [] ∧
    selectionPhase "openai" c6Before c6Bindings none c6Health c6Providers =
      .ok (buildItems "openai" c6Before c6Bindings (fun pid =>
        (c6Providers.filter (fun p =>
          (c6Bindings.map (fun mp => mp.providerID)).contains p.id &&
            p.typ == "openai")).find? (fun p => p.id == pid)), 1) :=
  ⟨fun _ _ => rfl, by decide, by decide, by decide,
   degradation_uses_full_candidate_set "openai" c6Before c6Bindings c6Health
     c6Providers (fun _ _ => rfl) (by decide) (by decide) (by decide)⟩

/-- C7 counterexample: the original body carries
`stream_options.chunk_size = 1`, but the rewritten body returned by
`BeforerOpenAI` has no `chunk_size` under `stream_options` — the whole
object was replaced — so not every other field of the original body is
preserved. -/
theorem stream_options_subfields_dropped :
    (getField c7Body "stream_options").bind
        (fun so => getField so "chunk_size") = some (.num 1) ∧
    Except.map
        (fun r => (getField r.2 "stream_options").bind
          (fun so => getField so "chunk_size"))
        (BeforerOpenAI c7Body) = .ok none := by
  exact ⟨rfl, rfl⟩

/-- C7 amended: for a streaming OpenAI body, `BeforerOpenAI` returns the
body with the entire top-level `stream_options` field replaced by the
object whose only member is `include_usage = true` — any client-set
subfields under `stream_options` are discarded — while every top-level
field other than `stream_options` is preserved. -/
theorem stream_rewrite_replaces_stream_options
    (fields : List (String × JVal))
    (hm : goString (getField (.obj fields) "model") ≠ "")
    (hs : goBool (getField (.obj fields) "stream") = true) :
    Except.map Prod.snd (BeforerOpenAI (.obj fields)) =
      .ok (setField (.obj fields) "stream_options" streamOptionsInjected) ∧
    getField (setField (.obj fields) "stream_options" streamOptionsInjected)
        "stream_options" = some streamOptionsInjected ∧
    ∀ k, k ≠ "stream_options" →
      getField (setField (.obj fields) "stream_options" streamOptionsInjected)
          k = getField (.obj fields) k := by
  refine ⟨?_, getField_setField_same fields "stream_options"
    streamOptionsInjected,
    fun k hk => getField_setField_other fields "stream_options" k
      streamOptionsInjected hk⟩
  have hmb : (goString (getField (.obj fields) "model") == "") = false := by
    simpa using hm
  simp [BeforerOpenAI, hmb, hs, Except.map]

/-- C7 witness: the amended rewrite law evaluated at the C7 body. -/
theorem stream_rewrite_replaces_stream_options_witness :
    goString (getField c7Body "model") ≠ "" ∧
    goBool (getField c7Body "stream") = true ∧
    (Except.map Prod.snd (BeforerOpenAI c7Body) =
        .ok (setField c7Body "stream_options" streamOptionsInjected) ∧
      getField (setField c7Body "stream_options" streamOptionsInjected)
          "stream_options" = some streamOptionsInjected ∧
      ∀ k, k ≠ "stream_options" →
        getField (setField c7Body "stream_options" streamOptionsInjected) k =
          getField c7Body k) :=
  ⟨by decide, rfl,
   stream_rewrite_replaces_stream_options
     [("model", .str "m"), ("stream", .bool true),
       ("stream_options", .obj [("chunk_size", .num 1)])]
     (by decide) rfl⟩

/-- C8: the background checker never probes a provider whose record has
`isHealthy = false` and `nextRetryAt` strictly in the future — the scan
skips it and returns the record unmodified — and dispatches the probe
again exactly once `nextRetryAt` is no longer in the future. -/
theorem checker_skips_unhealthy_before_retry (now t : Nat)
    (cfg : HealthCheckConfig) (v : ProviderValidation) (probe : ProbeOutcome)
    (hh : v.isHealthy = false) (hn : v.nextRetryAt = some t) :
    (now < t → checkProvider now cfg (some v) probe = (v, false)) ∧
    (t ≤ now → (checkProvider now cfg (some v) probe).2 = true) := by
  constructor
  · intro hlt
    unfold checkProvider
    simp [hh, hn, hlt]
  · intro hge
    unfold checkProvider
    have hnlt : ¬ now < t := by omega
    simp only [hh, hn, Bool.not_false, Bool.true_and, hnlt, decide_False,
      Bool.false_eq_true, if_false]
    rcases hp : performHealthCheck probe with ⟨healthy, statusCode, errMsg⟩
    simp only [hp]
    split
    · split <;> rfl
    · split <;> rfl

/-- C8 witness: the skip rule evaluated at an unhealthy record with
`nextRetryAt = 100`, scanned at `now = 60`. -/
theorem checker_skips_unhealthy_before_retry_witness :
    unhealthyAt100.isHealthy = false ∧
    unhealthyAt100.nextRetryAt = some 100 ∧
    ((60 < 100 →
        checkProvider 60 cfgTwoErrors (some unhealthyAt100) (.status 200) =
          (unhealthyAt100, false)) ∧
      (100 ≤ 60 →
        (checkProvider 60 cfgTwoErrors (some unhealthyAt100)
          (.status 200)).2 = true)) :=
  ⟨rfl, rfl,
   checker_skips_unhealthy_before_retry 60 100 cfgTwoErrors unhealthyAt100
     (.status 200) rfl rfl⟩

/-- C9 counterexample: the background classifier marks HTTP 400 as a
failure even though 400 is not a 5xx status, so 5xx and transport errors
are not the only failure outcomes. -/
theorem status_400_classified_failure :
    classifyHealthStatus 400 = false ∧ ¬ 500 ≤ 400 := by
  decide

/-- C9 amended: the classifier counts exactly 2xx, 401, 403, 404 and 429
as successes; every other status — 5xx, but also any other code such as
remaining 4xx or 3xx — is a failure, and a transport error is always a
failure. -/
theorem classifier_success_statuses (code : Nat) (msg : String) :
    (classifyHealthStatus code = true ↔
      (200 ≤ code ∧ code < 300) ∨ code = 401 ∨ code = 403 ∨ code = 404 ∨
        code = 429) ∧
    (performHealthCheck (.transportError msg)).1 = false := by
  constructor
  · unfold classifyHealthStatus
    split_ifs with h1 h2 h3 h4 h5 <;> simp <;> omega
  · rfl

/-- C10: a weight `w ≥ 1` stays `≥ 1` under the 429 decay, so any sequence
of 429 decays leaves the key set of `items` unchanged (no binding is
removed), keeps every weight `≥ 1`, keeps the total weight strictly
positive, and `WeightedRandom` on the decayed map always returns a key —
never its empty-items or non-positive-total errors. -/
theorem decay_preserves_picker_invariants (w : Int) (hw : 1 ≤ w)
    {items : Items} (hne : items ≠ []) (hpos : allWeightsPos items)
    (ids : List Nat) (seed : Nat) :
    1 ≤ decayWeight w ∧
    (applyDecays ids items).map Prod.fst = items.map Prod.fst ∧
    allWeightsPos (applyDecays ids items) ∧
    1 ≤ sumItems (applyDecays ids items) ∧
    ∃ k, WeightedRandom (applyDecays ids items) seed = .ok k := by
  have hkeys := applyDecays_keys ids items
  have hpos' : allWeightsPos (applyDecays ids items) :=
    applyDecays_allWeightsPos hpos
  have hne' : applyDecays ids items ≠ [] := by
    intro h
    apply hne
    have := congrArg List.length hkeys
    rw [h] at this
    simp only [List.map_nil, List.length_nil, List.length_map] at this
    exact List.length_eq_zero.mp this.symm
  exact ⟨decayWeight_pos hw, hkeys, hpos',
    sumItems_pos hne' hpos', WeightedRandom_ok hne' hpos' seed⟩

/-- C10 witness: the invariants evaluated after two 429 decays of a
singleton weight-1 map. -/
theorem decay_preserves_picker_invariants_witness :
    (1 : Int) ≤ 1 ∧ ([(1, 1)] : Items) ≠ [] ∧ allWeightsPos [(1, 1)] ∧
    (1 ≤ decayWeight 1 ∧
     (applyDecays [1, 1] [(1, 1)]).map Prod.fst =
       ([(1, 1)] : Items).map Prod.fst ∧
     allWeightsPos (applyDecays [1, 1] [(1, 1)]) ∧
     1 ≤ sumItems (applyDecays [1, 1] [(1, 1)]) ∧
     ∃ k, WeightedRandom (applyDecays [1, 1] [(1, 1)]) 0 = .ok k) :=
  ⟨by decide, by decide, by decide,
   decay_preserves_picker_invariants 1 (by decide) (by decide) (by decide)
     [1, 1] 0⟩

end Llmio
